import Mathlib

/-!
Verification of the ProxyScraperChecker repository (Go).

This file gives a shallow embedding of the program's pure core:

* the address normalizer and validator (`normalizeProxy`, `isValidProxy`
  from the scraper source file), including a model of the three Go
  regular expressions used there and of the `encoding/json` decoding of
  the `ProxyData` structure;
* the deduplicator (`RemoveDuplicates` from `utils.go`);
* the checker engine (`testProxy`, `checkHTTPProxy`, `checkSOCKS5Proxy`,
  `updateProgress`, `CheckProxies` from `config.go`), with the network
  modelled as an oracle giving each probe's outcome, and the concurrent
  run sequentialized (every per-candidate action is an atomic counter or
  channel update, so the aggregate state after completion is the same);
* the configuration default rules of `LoadConfig` and the flag override
  performed by `main`.

Durations are modelled in nanoseconds (Go `time.Duration` units).
-/

namespace PSC

/-! ## Characters used by the scanners (named, to keep literals simple) -/

/-- The character `{` (0x7b). -/
def lbrace : Char := Char.ofNat 123

/-- The character `}` (0x7d). -/
def rbrace : Char := Char.ofNat 125

/-- The double-quote character (0x22). -/
def dquote : Char := Char.ofNat 34

/-- The backslash character (0x5c). -/
def bslash : Char := Char.ofNat 92

/-! ## Scheme stripping

Go source: `strings.TrimPrefix` applied in sequence for the four
protocol schemes at the start of `normalizeProxy`. -/

/-- Model of Go `strings.TrimPrefix` on character lists. -/
def trimPfx (pre s : List Char) : List Char :=
  if pre.isPrefixOf s then s.drop pre.length else s

/-- The four sequential scheme strips at the start of `normalizeProxy`. -/
def stripSchemes (s : List Char) : List Char :=
  let s := trimPfx "http://".toList s
  let s := trimPfx "https://".toList s
  let s := trimPfx "socks4://".toList s
  let s := trimPfx "socks5://".toList s
  s

/-! ## The three Go regular expressions of `normalizeProxy`

The Go code uses
  `(\d{1,3}\.\d{1,3}\.\d{1,3}\.\d{1,3}):(\d+)`  (strict ip:port),
  `\d{1,3}\.\d{1,3}\.\d{1,3}\.\d{1,3}`          (dotted quad), and
  `\d{1,5}`                                      (digit run)
with `FindStringSubmatch` / `FindString`, i.e. leftmost match.  Because
`.` and `:` are not digits, backtracking inside an octet group is
forced: a group `\d{1,3}` followed by a non-digit literal matches at a
position iff the maximal digit run there has length 1..3 and is
followed by that literal.  The scanners below implement exactly that
leftmost-match semantics. -/

/-- Match `\d{1,3}\.` at the start: the maximal digit run must have
length 1..3 and be followed by a dot.  Returns the run and the rest
after the dot. -/
def matchOctetDot (cs : List Char) : Option (List Char × List Char) :=
  let run := cs.takeWhile Char.isDigit
  let rest := cs.dropWhile Char.isDigit
  if run.length == 0 || decide (run.length > 3) then none
  else
    match rest with
    | [] => none
    | c :: rest2 => if c == '.' then some (run, rest2) else none

/-- Match the full pattern `(\d{1,3}\.\d{1,3}\.\d{1,3}\.\d{1,3}):(\d+)`
at the start of the text, returning the two submatches (ip, port). -/
def matchIpPortAt (cs : List Char) : Option (List Char × List Char) :=
  match matchOctetDot cs with
  | none => none
  | some (o1, r1) =>
    match matchOctetDot r1 with
    | none => none
    | some (o2, r2) =>
      match matchOctetDot r2 with
      | none => none
      | some (o3, r3) =>
        let run4 := r3.takeWhile Char.isDigit
        let rest4 := r3.dropWhile Char.isDigit
        if run4.length == 0 || decide (run4.length > 3) then none
        else
          match rest4 with
          | [] => none
          | c :: r5 =>
            if c == ':' then
              let port := r5.takeWhile Char.isDigit
              if port.length == 0 then none
              else some (o1 ++ '.' :: o2 ++ '.' :: o3 ++ '.' :: run4, port)
            else none

/-- Leftmost match of the strict ip:port pattern
(`re.FindStringSubmatch` in the Go source). -/
def findIpPort : List Char → Option (List Char × List Char)
  | [] => none
  | c :: rest =>
    match matchIpPortAt (c :: rest) with
    | some r => some r
    | none => findIpPort rest

/-- Match the bare quad `\d{1,3}\.\d{1,3}\.\d{1,3}\.\d{1,3}` at the
start of the text; the last group takes up to three digits greedily. -/
def matchQuadAt (cs : List Char) : Option (List Char) :=
  match matchOctetDot cs with
  | none => none
  | some (o1, r1) =>
    match matchOctetDot r1 with
    | none => none
    | some (o2, r2) =>
      match matchOctetDot r2 with
      | none => none
      | some (o3, r3) =>
        let run4 := r3.takeWhile Char.isDigit
        if run4.length == 0 then none
        else some (o1 ++ '.' :: o2 ++ '.' :: o3 ++ '.' :: run4.take 3)

/-- Leftmost match of the dotted-quad pattern
(`ipRe.FindString` in the Go source). -/
def findQuad : List Char → Option (List Char)
  | [] => none
  | c :: rest =>
    match matchQuadAt (c :: rest) with
    | some r => some r
    | none => findQuad rest

/-- Leftmost match of `\d{1,5}` (`portRe.FindString` in the Go source):
the first digit of the text starts the match, which then takes up to
five digits greedily. -/
def findDigits : List Char → Option (List Char)
  | [] => none
  | c :: rest =>
    if c.isDigit then some (((c :: rest).takeWhile Char.isDigit).take 5)
    else findDigits rest

/-! ## Model of `encoding/json` unmarshalling into `ProxyData`

The Go type is a struct with a `data` array of objects carrying string
fields tagged `ip`, `port`, `proxy_port`, `port_num`, `port_number`.
`json.Unmarshal` is modelled by a JSON parser (Go JSON grammar: the
whole input must be one JSON value followed only by whitespace) plus a
decoder mirroring Go's rules for this target type: the top level must
be an object; unknown keys are ignored; key matching is
case-insensitive; a `null` value leaves a string field unchanged and
sets the slice to nil; any type mismatch in a relevant field is a
decode error (the Go caller only uses the result when `err == nil`). -/

/-- JSON syntax trees (number payloads are irrelevant to the decoder:
a number in a relevant field is a type error). -/
inductive Json where
  | null : Json
  | bool (b : Bool) : Json
  | num : Json
  | str (s : List Char) : Json
  | arr (xs : List Json) : Json
  | obj (kvs : List (List Char × Json)) : Json
deriving Repr

/-- One element of the `data` array of the Go `ProxyData` struct; all
fields default to the empty string (Go zero value). -/
structure ProxyEntry where
  ip : List Char := []
  port : List Char := []
  proxyPort : List Char := []
  portNum : List Char := []
  portNumber : List Char := []
deriving Repr, DecidableEq

/-- Skip JSON whitespace (space, tab, newline, carriage return). -/
def skipWs (cs : List Char) : List Char :=
  match cs with
  | c :: rest =>
    if c == ' ' || c == '\t' || c == '\n' || c == '\r' then skipWs rest
    else c :: rest
  | [] => []

/-- Value of one hexadecimal digit (code-point arithmetic: 0x30..0x39
are the digits, 0x61..0x66 lowercase a..f, 0x41..0x46 uppercase). -/
def hexVal (c : Char) : Option Nat :=
  let n := c.toNat
  if 0x30 ≤ n ∧ n ≤ 0x39 then some (n - 0x30)
  else if 0x61 ≤ n ∧ n ≤ 0x66 then some (n - 0x61 + 10)
  else if 0x41 ≤ n ∧ n ≤ 0x46 then some (n - 0x41 + 10)
  else none

/-- Parse the body of a JSON string (opening quote already consumed),
returning the decoded content and the rest after the closing quote.
Escapes follow Go: the simple escapes, and unicode escapes with
surrogate-pair combination, lone surrogates becoming U+FFFD. -/
def parseStr : Nat → List Char → Option (List Char × List Char)
  | 0, _ => none
  | _ + 1, [] => none
  | n + 1, c :: rest =>
    if c == dquote then some ([], rest)
    else if c == bslash then
      match rest with
      | [] => none
      | e :: rest2 =>
        if e == dquote then (parseStr n rest2).map (fun p => (dquote :: p.1, p.2))
        else if e == bslash then (parseStr n rest2).map (fun p => (bslash :: p.1, p.2))
        else if e == '/' then (parseStr n rest2).map (fun p => ('/' :: p.1, p.2))
        else if e == 'b' then (parseStr n rest2).map (fun p => (Char.ofNat 8 :: p.1, p.2))
        else if e == 'f' then (parseStr n rest2).map (fun p => (Char.ofNat 12 :: p.1, p.2))
        else if e == 'n' then (parseStr n rest2).map (fun p => ('\n' :: p.1, p.2))
        else if e == 'r' then (parseStr n rest2).map (fun p => (Char.ofNat 13 :: p.1, p.2))
        else if e == 't' then (parseStr n rest2).map (fun p => ('\t' :: p.1, p.2))
        else if e == 'u' then
          match rest2 with
          | h1 :: h2 :: h3 :: h4 :: rest3 =>
            match hexVal h1, hexVal h2, hexVal h3, hexVal h4 with
            | some a, some b, some c2, some d =>
              let v := ((a * 16 + b) * 16 + c2) * 16 + d
              if 0xD800 ≤ v && v < 0xDC00 then
                match rest3 with
                | e2 :: u2 :: g1 :: g2 :: g3 :: g4 :: rest4 =>
                  if e2 == bslash && u2 == 'u' then
                    match hexVal g1, hexVal g2, hexVal g3, hexVal g4 with
                    | some w1, some w2, some w3, some w4 =>
                      let w := ((w1 * 16 + w2) * 16 + w3) * 16 + w4
                      if 0xDC00 ≤ w && w < 0xE000 then
                        (parseStr n rest4).map (fun p =>
                          (Char.ofNat (0x10000 + (v - 0xD800) * 0x400 + (w - 0xDC00)) :: p.1, p.2))
                      else (parseStr n rest3).map (fun p => (Char.ofNat 0xFFFD :: p.1, p.2))
                    | _, _, _, _ => (parseStr n rest3).map (fun p => (Char.ofNat 0xFFFD :: p.1, p.2))
                  else (parseStr n rest3).map (fun p => (Char.ofNat 0xFFFD :: p.1, p.2))
                | _ => (parseStr n rest3).map (fun p => (Char.ofNat 0xFFFD :: p.1, p.2))
              else if 0xDC00 ≤ v && v < 0xE000 then
                (parseStr n rest3).map (fun p => (Char.ofNat 0xFFFD :: p.1, p.2))
              else (parseStr n rest3).map (fun p => (Char.ofNat v :: p.1, p.2))
            | _, _, _, _ => none
          | _ => none
        else none
    else if c.toNat < 0x20 then none
    else (parseStr n rest).map (fun p => (c :: p.1, p.2))

/-- Consume a nonempty digit run, returning the rest. -/
def parseDigitsRun (cs : List Char) : Option (List Char) :=
  if (cs.takeWhile Char.isDigit).length == 0 then none
  else some (cs.dropWhile Char.isDigit)

/-- Consume the optional fraction and exponent of a JSON number. -/
def parseFracExp (cs : List Char) : Option (List Char) :=
  let afterFrac : Option (List Char) :=
    match cs with
    | c :: rest => if c == '.' then parseDigitsRun rest else some cs
    | [] => some cs
  match afterFrac with
  | none => none
  | some cs2 =>
    match cs2 with
    | c :: rest =>
      if c == 'e' || c == 'E' then
        let rest2 :=
          match rest with
          | d :: r2 => if d == '+' || d == '-' then r2 else rest
          | [] => rest
        parseDigitsRun rest2
      else some cs2
    | [] => some cs2

/-- Consume a JSON number token, returning the rest. -/
def parseNumber (cs : List Char) : Option (List Char) :=
  let cs1 :=
    match cs with
    | c :: rest => if c == '-' then rest else cs
    | [] => cs
  match cs1 with
  | c :: rest =>
    if c == '0' then parseFracExp rest
    else if c.isDigit then parseFracExp (rest.dropWhile Char.isDigit)
    else none
  | [] => none

mutual

/-- Parse one JSON value (leading whitespace allowed), returning the
value and the unconsumed rest. -/
def parseValue : Nat → List Char → Option (Json × List Char)
  | 0, _ => none
  | n + 1, cs =>
    match skipWs cs with
    | [] => none
    | c :: rest =>
      if c == lbrace then
        match skipWs rest with
        | c2 :: r2 =>
          if c2 == rbrace then some (Json.obj [], r2)
          else
            match parseObjItems n (skipWs rest) with
            | some (kvs, r3) => some (Json.obj kvs, r3)
            | none => none
        | [] => none
      else if c == '[' then
        match skipWs rest with
        | c2 :: r2 =>
          if c2 == ']' then some (Json.arr [], r2)
          else
            match parseArrayItems n (skipWs rest) with
            | some (xs, r3) => some (Json.arr xs, r3)
            | none => none
        | [] => none
      else if c == dquote then
        match parseStr (rest.length + 1) rest with
        | some (s, r2) => some (Json.str s, r2)
        | none => none
      else if c == 't' then
        match rest with
        | 'r' :: 'u' :: 'e' :: r2 => some (Json.bool true, r2)
        | _ => none
      else if c == 'f' then
        match rest with
        | 'a' :: 'l' :: 's' :: 'e' :: r2 => some (Json.bool false, r2)
        | _ => none
      else if c == 'n' then
        match rest with
        | 'u' :: 'l' :: 'l' :: r2 => some (Json.null, r2)
        | _ => none
      else if c == '-' || c.isDigit then
        match parseNumber (c :: rest) with
        | some r2 => some (Json.num, r2)
        | none => none
      else none

/-- Parse the members of a JSON object after the opening brace (at
least one member), consuming the closing brace. -/
def parseObjItems : Nat → List Char → Option (List (List Char × Json) × List Char)
  | 0, _ => none
  | n + 1, cs =>
    match skipWs cs with
    | [] => none
    | c :: rest =>
      if c == dquote then
        match parseStr (rest.length + 1) rest with
        | none => none
        | some (key, r1) =>
          match skipWs r1 with
          | [] => none
          | c2 :: r2 =>
            if c2 == ':' then
              match parseValue n r2 with
              | none => none
              | some (v, r3) =>
                match skipWs r3 with
                | [] => none
                | c3 :: r4 =>
                  if c3 == ',' then
                    match parseObjItems n r4 with
                    | some (kvs, r5) => some ((key, v) :: kvs, r5)
                    | none => none
                  else if c3 == rbrace then some ([(key, v)], r4)
                  else none
            else none
      else none

/-- Parse the elements of a JSON array after the opening bracket (at
least one element), consuming the closing bracket. -/
def parseArrayItems : Nat → List Char → Option (List Json × List Char)
  | 0, _ => none
  | n + 1, cs =>
    match parseValue n cs with
    | none => none
    | some (v, r1) =>
      match skipWs r1 with
      | [] => none
      | c2 :: r2 =>
        if c2 == ',' then
          match parseArrayItems n r2 with
          | some (xs, r3) => some (v :: xs, r3)
          | none => none
        else if c2 == ']' then some ([v], r2)
        else none

end

/-- Parse a whole JSON document: one value followed only by
whitespace.  The fuel `cs.length + 1` bounds the call depth, which
grows only when at least one character has been consumed. -/
def parseJson (cs : List Char) : Option Json :=
  match parseValue (cs.length + 1) cs with
  | some (j, rest) => if skipWs rest == [] then some j else none
  | none => none

/-- Case-insensitive key comparison (Go matches JSON keys to field
tags case-insensitively; the relevant tags are ASCII). -/
def lowerEq (a b : List Char) : Bool :=
  a.map Char.toLower == b.map Char.toLower

/-- Decode one JSON object member into a `ProxyEntry` field, following
Go rules: tags matched case-insensitively, unknown keys ignored,
`null` leaves the field unchanged, a non-string value for a relevant
key is a decode error. -/
def setEntryField (e : ProxyEntry) (k : List Char) (v : Json) : Option ProxyEntry :=
  if lowerEq k "ip".toList then
    match v with
    | Json.str s => some { e with ip := s }
    | Json.null => some e
    | _ => none
  else if lowerEq k "port".toList then
    match v with
    | Json.str s => some { e with port := s }
    | Json.null => some e
    | _ => none
  else if lowerEq k "proxy_port".toList then
    match v with
    | Json.str s => some { e with proxyPort := s }
    | Json.null => some e
    | _ => none
  else if lowerEq k "port_num".toList then
    match v with
    | Json.str s => some { e with portNum := s }
    | Json.null => some e
    | _ => none
  else if lowerEq k "port_number".toList then
    match v with
    | Json.str s => some { e with portNumber := s }
    | Json.null => some e
    | _ => none
  else some e

/-- Decode one element of the `data` array (a JSON object; `null`
yields the zero struct; anything else is a decode error). -/
def decodeEntry (j : Json) : Option ProxyEntry :=
  match j with
  | Json.null => some {}
  | Json.obj kvs => kvs.foldlM (fun e kv => setEntryField e kv.1 kv.2) {}
  | _ => none

/-- Model of `json.Unmarshal(body, &data)` for the Go `ProxyData`
struct, returning the decoded `data` slice; `none` models
`err != nil`. -/
def decodeProxyData (cs : List Char) : Option (List ProxyEntry) :=
  match parseJson cs with
  | none => none
  | some (Json.obj kvs) =>
    kvs.foldlM
      (fun acc kv =>
        if lowerEq kv.1 "data".toList then
          match kv.2 with
          | Json.null => some []
          | Json.arr xs => xs.mapM decodeEntry
          | _ => none
        else some acc)
      []
  | some _ => none

/-! ## `normalizeProxy` and `isValidProxy` (scraper source file) -/

/-- The JSON branch of `normalizeProxy`: fires iff the stripped text
starts with a brace, unmarshalling succeeds, and the `data` slice is
nonempty; then the port falls back through the alternate field names
and defaults to 80. -/
def jsonBranch (cs : List Char) : Option (List Char) :=
  if cs.head? == some lbrace then
    match decodeProxyData cs with
    | some (e :: _) =>
      let port := e.port
      let port := if port.isEmpty then e.proxyPort else port
      let port := if port.isEmpty then e.portNum else port
      let port := if port.isEmpty then e.portNumber else port
      let port := if port.isEmpty then "80".toList else port
      some (e.ip ++ ':' :: port)
    | _ => none
  else none

/-- Go `normalizeProxy`: strip schemes; try the JSON branch; try the
strict ip:port pattern; try the independent quad/digit-run fallback;
otherwise return the empty string (rejection). -/
def normalizeProxy (proxy : String) : String :=
  let cs := stripSchemes proxy.toList
  match jsonBranch cs with
  | some r => String.mk r
  | none =>
    match findIpPort cs with
    | some ipPort => String.mk (ipPort.1 ++ ':' :: ipPort.2)
    | none =>
      match findQuad cs, findDigits cs with
      | some ip, some port => String.mk (ip ++ ':' :: port)
      | _, _ => ""

/-- Go `isValidProxy`: reject the empty line, normalize, reject a
failed normalization, then validate the normalized form: splitting on
colons must give exactly two parts and the second part must be one to
five characters, all ASCII digits. -/
def isValidProxy (proxy : String) : String × Bool :=
  if proxy == "" then ("", false)
  else
    let normalized := normalizeProxy proxy
    if normalized == "" then ("", false)
    else
      let parts := normalized.toList.splitOn ':'
      if !(parts.length == 2) then ("", false)
      else
        let port := parts.getD 1 []
        if port.length == 0 || decide (port.length > 5) then ("", false)
        else if port.any (fun c => decide (c < '0') || decide ('9' < c)) then ("", false)
        else (normalized, true)

/-! ## `RemoveDuplicates` (utils.go)

The Go function keeps a `seen` set (a map used only for membership)
and an ordered `result` slice; each input element is appended to
`result` iff it was not in `seen`. -/

/-- Loop of Go `RemoveDuplicates`: `seen` models the key set of the
Go map, `result` the accumulated output slice. -/
def removeDuplicatesAux : List String → List String → List String → List String
  | [], _, result => result
  | p :: rest, seen, result =>
    if p ∈ seen then removeDuplicatesAux rest seen result
    else removeDuplicatesAux rest (p :: seen) (result ++ [p])

/-- Go `RemoveDuplicates`. -/
def RemoveDuplicates (proxies : List String) : List String :=
  removeDuplicatesAux proxies [] []

/-- Modelled from the spec: the reference "first occurrence" filter —
keep the head, delete its later duplicates, recurse.  Used to state
that `RemoveDuplicates` preserves the order of first occurrence. -/
def dedupFirst : List String → List String
  | [] => []
  | x :: xs => x :: dedupFirst (xs.filter (fun y => !(y == x)))
termination_by l => l.length
decreasing_by
  simp only [List.length_cons]
  exact Nat.lt_succ_of_le (List.length_filter_le _ _)

/-- Index of the first occurrence of `a` in `l` (equals `l.length`
when absent); used to state first-occurrence-order preservation. -/
def firstIdx : List String → String → Nat
  | [], _ => 0
  | x :: xs, a => if x = a then 0 else firstIdx xs a + 1

/-! ## Configuration defaults (`LoadConfig` in config.go) and the flag
override in `main` -/

/-- Go `ScraperConfig` (durations in nanoseconds). -/
structure ScraperConfig where
  timeout : Nat
  userAgent : String
  concurrent : Nat
  userAgents : List String
deriving Repr, DecidableEq

/-- Go `CheckerConfig` (durations in nanoseconds). -/
structure CheckerConfig where
  timeout : Nat
  connectTimeout : Nat
  concurrent : Nat
  concurrentHTTP : Nat
  concurrentSOCKS5 : Nat
  checkURLs : List String
  testURL : String
  userAgent : String
  strictCheck : Bool
  detailedOutput : Bool
deriving Repr, DecidableEq

/-- Go `Config`. -/
structure Config where
  scraper : ScraperConfig
  checker : CheckerConfig
deriving Repr, DecidableEq

/-- The default user agent string of `LoadConfig`. -/
def defaultUserAgent : String :=
  "Mozilla/5.0 (Windows NT 10.0; Win64; x64) AppleWebKit/537.36 (KHTML, like Gecko) Chrome/91.0.4472.124 Safari/537.36"

/-- The default-filling part of Go `LoadConfig` (everything after the
YAML unmarshal succeeded), translated condition by condition in source
order. -/
def applyDefaults (c0 : Config) : Config :=
  let c := c0
  let c := if c.scraper.timeout == 0 then
    { c with scraper := { c.scraper with timeout := 10000000000 } } else c
  let c := if c.scraper.userAgent == "" then
    { c with scraper := { c.scraper with userAgent := defaultUserAgent } } else c
  let c := if c.scraper.userAgents.length == 0 then
    { c with scraper := { c.scraper with userAgents := [c.scraper.userAgent] } } else c
  let c := if c.scraper.concurrent == 0 then
    { c with scraper := { c.scraper with concurrent := 10 } } else c
  let c := if c.checker.timeout == 0 then
    { c with checker := { c.checker with
      timeout := if c.checker.strictCheck then 3000000000 else 10000000000 } } else c
  let c := if c.checker.connectTimeout == 0 then
    { c with checker := { c.checker with
      connectTimeout := if c.checker.strictCheck then 3000000000 else 5000000000 } } else c
  let c := if c.checker.concurrent == 0 then
    { c with checker := { c.checker with concurrent := 100 } } else c
  let c := if c.checker.concurrentHTTP == 0 then
    { c with checker := { c.checker with concurrentHTTP := c.checker.concurrent } } else c
  let c := if c.checker.concurrentSOCKS5 == 0 then
    { c with checker := { c.checker with concurrentSOCKS5 := c.checker.concurrent } } else c
  let c := if c.checker.checkURLs.length == 0 then
    { c with checker := { c.checker with checkURLs := ["http://checkip.amazonaws.com"] } } else c
  let c := if c.checker.testURL == "" then
    { c with checker := { c.checker with testURL := c.checker.checkURLs.headI } } else c
  let c := if c.checker.userAgent == "" then
    { c with checker := { c.checker with userAgent := c.scraper.userAgent } } else c
  let c := if !c.checker.strictCheck then
    { c with checker := { c.checker with detailedOutput := false } } else c
  c

/-- The unconditional flag override performed by `main` right after
`LoadConfig` returns: both checker flags are overwritten with the
command-line values. -/
def applyFlags (strictFlag detailedFlag : Bool) (c : Config) : Config :=
  { c with checker := { c.checker with
      strictCheck := strictFlag, detailedOutput := detailedFlag } }

/-- The configuration a run actually uses: `LoadConfig` defaults on
the YAML contents, then the flag override from `main`. -/
def runConfig (yaml : Config) (strictFlag detailedFlag : Bool) : Config :=
  applyFlags strictFlag detailedFlag (applyDefaults yaml)

/-- The all-zero YAML configuration (every field at its Go zero
value). -/
def yamlZero : Config :=
  ⟨⟨0, "", 0, []⟩, ⟨0, 0, 0, 0, 0, [], "", "", false, false⟩⟩

/-! ## Checker engine (config.go)

Network interaction is modelled by an oracle: for each candidate, the
outcome of every probe the code can make through the client built for
that candidate.  `none` models any transport error (request
construction, connection, timeout, body read, JSON decode). -/

/-- Go `ProxyType`. -/
inductive ProxyType where
  | HTTP : ProxyType
  | SOCKS5 : ProxyType
deriving Repr, DecidableEq

/-- Go `ProxyLocation`. -/
structure ProxyLocation where
  country : String
  countryCode : String
  city : String
  region : String
deriving Repr, DecidableEq

/-- Go `CheckResult` (the field named `Type` in Go is `ptype` here). -/
structure CheckResult where
  proxy : String
  working : Bool
  ptype : ProxyType
  proxyIP : String
  speed : Nat
  anonymous : Bool
  location : Option ProxyLocation
deriving Repr, DecidableEq

/-- The decoded body of the ip-api.com probe (strict mode, probe 1);
present only when transport and JSON decode succeeded. -/
structure IpApiResp where
  status : String
  country : String
  countryCode : String
  region : String
  city : String
  query : String
deriving Repr, DecidableEq

/-- Outcomes of every probe `testProxy` can make through one
candidate's client.  `basicStatus` is the HTTP status of the single
basic-mode GET (`none` = any request error, including timeout);
`geoResp` and `headersResp` are the strict-mode probe outcomes
(`none` = any transport or JSON-decode error); the elapsed fields are
the values `time.Since(start)` would measure at the corresponding
return points, in nanoseconds. -/
structure ProbeEnv where
  basicStatus : Option Nat
  basicElapsed : Nat
  geoResp : Option IpApiResp
  headersResp : Option (List (String × String))
  strictElapsed : Nat
deriving Repr, DecidableEq

/-- Model of Go `strings.Contains` (true for an empty needle). -/
def hasSub : List Char → List Char → Bool
  | hay, needle =>
    match hay with
    | [] => needle.isEmpty
    | _ :: t => needle.isPrefixOf hay || hasSub t needle

/-- The tuple returned by Go `testProxy`. -/
structure TestReturn where
  working : Bool
  proxyIP : String
  speed : Nat
  anonymous : Bool
  location : Option ProxyLocation
deriving Repr, DecidableEq

/-- Go `testProxy`, branch for branch.  In basic mode one GET is made
and the candidate works iff the status is 200.  In strict mode the
geolocation probe must decode with status "success", then the
headers-echo probe must decode, anonymity is the absence of the egress
IP from every echoed header value, and the candidate works iff the
total elapsed time is under two seconds and the egress IP is
nonempty.  Every error path returns the zero tuple. -/
def testProxy (strictCheck : Bool) (env : ProbeEnv) : TestReturn :=
  if !strictCheck then
    match env.basicStatus with
    | none => ⟨false, "", 0, false, none⟩
    | some code => ⟨code == 200, "", env.basicElapsed, false, none⟩
  else
    match env.geoResp with
    | none => ⟨false, "", 0, false, none⟩
    | some ipData =>
      if !(ipData.status == "success") then ⟨false, "", 0, false, none⟩
      else
        let proxyIP := ipData.query
        let location : ProxyLocation :=
          ⟨ipData.country, ipData.countryCode, ipData.city, ipData.region⟩
        match env.headersResp with
        | none => ⟨false, "", 0, false, none⟩
        | some headers =>
          let isAnonymous := headers.all (fun kv => !(hasSub kv.2.toList proxyIP.toList))
          let totalTime := env.strictElapsed
          let working := decide (totalTime < 2000000000) && !(proxyIP == "")
          ⟨working, proxyIP, totalTime, isAnonymous, some location⟩

/-- The shared state of Go `ProxyChecker`: the progress counters and
the contents of `ResultChan` (as the list of results published to the
channel). -/
structure CheckerState where
  checkedHTTP : Nat := 0
  checkedSOCKS5 : Nat := 0
  workingHTTP : Nat := 0
  workingSOCKS5 : Nat := 0
  totalHTTP : Nat := 0
  totalSOCKS5 : Nat := 0
  results : List CheckResult := []
deriving Repr, DecidableEq

/-- The state of a fresh `ProxyChecker` after `CheckProxies` stored
the two totals: all counters zero, nothing published yet. -/
def initState (totalH totalS : Nat) : CheckerState :=
  { totalHTTP := totalH, totalSOCKS5 := totalS }

/-- Go `updateProgress`: increment the checked counter of the family
and, when the check succeeded, its working counter. -/
def updateProgress (proxyType : ProxyType) (working : Bool) (s : CheckerState) : CheckerState :=
  match proxyType with
  | ProxyType.HTTP =>
    { s with checkedHTTP := s.checkedHTTP + 1,
             workingHTTP := if working then s.workingHTTP + 1 else s.workingHTTP }
  | ProxyType.SOCKS5 =>
    { s with checkedSOCKS5 := s.checkedSOCKS5 + 1,
             workingSOCKS5 := if working then s.workingSOCKS5 + 1 else s.workingSOCKS5 }

/-- Go `checkHTTPProxy`.  `parseOk p` models whether
`url.Parse("http://" + p)` succeeds; on failure the code logs, updates
progress as not working and returns without publishing to
`ResultChan`.  Otherwise the result of `testProxy` is published to the
channel and progress is updated. -/
def checkHTTPProxy (strictCheck : Bool) (env : String → ProbeEnv) (parseOk : String → Bool)
    (s : CheckerState) (p : String) : CheckerState :=
  if !(parseOk p) then
    updateProgress ProxyType.HTTP false s
  else
    let r := testProxy strictCheck (env p)
    let result : CheckResult := ⟨p, r.working, ProxyType.HTTP, r.proxyIP, r.speed, r.anonymous, r.location⟩
    updateProgress ProxyType.HTTP r.working { s with results := s.results ++ [result] }

/-- Go `checkSOCKS5Proxy`.  `dialerOk p` models whether
`proxy.SOCKS5(...)` succeeds; on failure the code logs, updates
progress as not working and returns without publishing to
`ResultChan`. -/
def checkSOCKS5Proxy (strictCheck : Bool) (env : String → ProbeEnv) (dialerOk : String → Bool)
    (s : CheckerState) (p : String) : CheckerState :=
  if !(dialerOk p) then
    updateProgress ProxyType.SOCKS5 false s
  else
    let r := testProxy strictCheck (env p)
    let result : CheckResult := ⟨p, r.working, ProxyType.SOCKS5, r.proxyIP, r.speed, r.anonymous, r.location⟩
    updateProgress ProxyType.SOCKS5 r.working { s with results := s.results ++ [result] }

/-- Go `CheckProxies` on a fresh `ProxyChecker`: set the totals, then
run every candidate of both families.  The concurrent goroutines are
sequentialized; each per-candidate effect (one mutex-guarded counter
update, one channel send) is atomic in the Go code, so the state after
`wg.Wait()` is the state reached here. -/
def CheckProxies (strictCheck : Bool) (env : String → ProbeEnv)
    (parseOk dialerOk : String → Bool)
    (httpProxies socks5Proxies : List String) : CheckerState :=
  let s0 := initState httpProxies.length socks5Proxies.length
  let s1 := httpProxies.foldl (checkHTTPProxy strictCheck env parseOk) s0
  socks5Proxies.foldl (checkSOCKS5Proxy strictCheck env dialerOk) s1

/-! ## Theorems -/

/-- C8: `isValidProxy` accepts a five-digit port with no numeric range
check (`1.2.3.4:99999`) and rejects a six-digit port
(`1.2.3.4:123456`). -/
theorem c8_port_length_only :
    isValidProxy "1.2.3.4:99999" = ("1.2.3.4:99999", true) ∧
      isValidProxy "1.2.3.4:123456" = ("", false) := by
  constructor
  · rfl
  · rfl

/-- C9: the four positive normalization vectors of the spec: a
protocol-prefixed URL, a plain ip:port line, a JSON payload with a
port field, and a JSON payload without one (port defaulting to 80). -/
theorem c9_normalizer_vectors :
    normalizeProxy "http://1.2.3.4:8080" = "1.2.3.4:8080" ∧
      normalizeProxy "5.6.7.8:3128" = "5.6.7.8:3128" ∧
      normalizeProxy "\x7b\"data\":[\x7b\"ip\":\"9.9.9.9\",\"port\":\"1080\"\x7d]\x7d" = "9.9.9.9:1080" ∧
      normalizeProxy "\x7b\"data\":[\x7b\"ip\":\"9.9.9.9\"\x7d]\x7d" = "9.9.9.9:80" := by
  refine ⟨rfl, rfl, rfl, rfl⟩

/-- C5: in basic (non-strict) mode a candidate is classified working
iff the single GET to the test URL came back with HTTP status exactly
200; every request error or timeout is the `none` outcome and yields
not-working. -/
theorem c5_basic_working_iff_200 (env : ProbeEnv) :
    (testProxy false env).working = true ↔ env.basicStatus = some 200 := by
  cases hb : env.basicStatus with
  | none => simp [testProxy, hb]
  | some code => simp [testProxy, hb]

/-- C1 (counterexample): the strict-mode claim "working iff the
geolocation lookup succeeds with a nonempty egress IP and the total
elapsed time is under 2 seconds; no other condition matters" is false:
here the geolocation probe succeeds with status "success", a nonempty
egress IP and elapsed time 100 ns < 2 s, yet the candidate is
classified not working because the headers-echo probe failed. -/
theorem c1_claim_false_on_failed_headers_probe :
    (testProxy true ⟨none, 0, some ⟨"success", "A", "AA", "R", "C", "9.9.9.9"⟩, none, 100⟩).working
        = false ∧
      ("success" : String) = "success" ∧ ("9.9.9.9" : String) ≠ "" ∧ (100 : Nat) < 2000000000 := by
  refine ⟨rfl, rfl, by decide, by decide⟩

/-- C1 (amended): in strict mode a candidate is classified working iff
the geolocation probe decodes with status "success", the headers-echo
probe also decodes successfully, the egress IP is nonempty, and the
total elapsed time across both probes is under 2 seconds. -/
theorem c1_strict_working_iff (env : ProbeEnv) :
    (testProxy true env).working = true ↔
      ∃ d, env.geoResp = some d ∧ d.status = "success" ∧
        env.headersResp.isSome = true ∧ d.query ≠ "" ∧
        env.strictElapsed < 2000000000 := by
  cases hg : env.geoResp with
  | none => simp [testProxy, hg]
  | some d =>
    cases hh : env.headersResp with
    | none =>
      simp [testProxy, hg, hh]
    | some hs =>
      by_cases hst : d.status = "success"
      · simp [testProxy, hg, hh, hst]
        constructor
        · intro h
          exact ⟨h.2, h.1⟩
        · intro h
          exact ⟨h.2, h.1⟩
      · simp [testProxy, hg, hh, hst]

/-- C4 (counterexample): a run with both checker timeouts unset whose
strict mode comes from the `--strict` flag (YAML `strict_check`
false).  The run is in strict mode, yet the defaults applied are the
normal-mode ones: 10 s response and 5 s connect, not 3 s. -/
theorem c4_flag_does_not_pick_strict_defaults :
    (runConfig yamlZero true false).checker.strictCheck = true ∧
      (runConfig yamlZero true false).checker.timeout = 10000000000 ∧
      (runConfig yamlZero true false).checker.connectTimeout = 5000000000 := by
  refine ⟨rfl, rfl, rfl⟩

/-- C4 (amended): with both checker timeouts unset, the defaults are
selected by the YAML `strict_check` value at load time — 3 s/3 s when
the YAML sets it, 10 s response / 5 s connect otherwise — while the
run's effective strict mode is the `--strict` flag, which `main`
writes over `strictCheck` after the defaults are already applied and
which therefore never influences them. -/
theorem c4_defaults_follow_yaml_strict (yaml : Config) (sf df : Bool)
    (h1 : yaml.checker.timeout = 0) (h2 : yaml.checker.connectTimeout = 0) :
    (runConfig yaml sf df).checker.strictCheck = sf ∧
      (runConfig yaml sf df).checker.timeout
        = (if yaml.checker.strictCheck then 3000000000 else 10000000000) ∧
      (runConfig yaml sf df).checker.connectTimeout
        = (if yaml.checker.strictCheck then 3000000000 else 5000000000) := by
  obtain ⟨⟨st, sua, sc, suas⟩, ⟨t, ct, cc, chh, cs5, cu, tu, ua, strict, det⟩⟩ := yaml
  simp only at h1 h2
  subst h1 h2
  cases strict <;> cases sf <;>
    simp [runConfig, applyDefaults, applyFlags,
      apply_ite Config.checker, apply_ite CheckerConfig.timeout,
      apply_ite CheckerConfig.connectTimeout, apply_ite CheckerConfig.strictCheck]

/-- C4 (witness): the amended default rule evaluated on the all-zero
configuration with the strict flag set. -/
theorem c4_defaults_follow_yaml_strict_witness :
    (runConfig yamlZero true false).checker.strictCheck = true ∧
      (runConfig yamlZero true false).checker.timeout
        = (if yamlZero.checker.strictCheck then 3000000000 else 10000000000) ∧
      (runConfig yamlZero true false).checker.connectTimeout
        = (if yamlZero.checker.strictCheck then 3000000000 else 5000000000) :=
  c4_defaults_follow_yaml_strict yamlZero true false rfl rfl

/-! ### Fold lemmas for the checker engine -/

lemma updateProgress_results (t : ProxyType) (b : Bool) (s : CheckerState) :
    (updateProgress t b s).results = s.results := by
  cases t <;> rfl

lemma checkHTTPProxy_step (strict : Bool) (env : String → ProbeEnv) (pOk : String → Bool)
    (s : CheckerState) (p : String) :
    (checkHTTPProxy strict env pOk s p).checkedHTTP = s.checkedHTTP + 1 ∧
      (checkHTTPProxy strict env pOk s p).checkedSOCKS5 = s.checkedSOCKS5 ∧
      (checkHTTPProxy strict env pOk s p).workingHTTP ≤ s.workingHTTP + 1 ∧
      (checkHTTPProxy strict env pOk s p).workingSOCKS5 = s.workingSOCKS5 ∧
      (checkHTTPProxy strict env pOk s p).totalHTTP = s.totalHTTP ∧
      (checkHTTPProxy strict env pOk s p).totalSOCKS5 = s.totalSOCKS5 := by
  cases hp : pOk p with
  | false => simp [checkHTTPProxy, hp, updateProgress]
  | true =>
    simp [checkHTTPProxy, hp, updateProgress]
    split <;> omega

lemma checkSOCKS5Proxy_step (strict : Bool) (env : String → ProbeEnv) (dOk : String → Bool)
    (s : CheckerState) (p : String) :
    (checkSOCKS5Proxy strict env dOk s p).checkedSOCKS5 = s.checkedSOCKS5 + 1 ∧
      (checkSOCKS5Proxy strict env dOk s p).checkedHTTP = s.checkedHTTP ∧
      (checkSOCKS5Proxy strict env dOk s p).workingSOCKS5 ≤ s.workingSOCKS5 + 1 ∧
      (checkSOCKS5Proxy strict env dOk s p).workingHTTP = s.workingHTTP ∧
      (checkSOCKS5Proxy strict env dOk s p).totalHTTP = s.totalHTTP ∧
      (checkSOCKS5Proxy strict env dOk s p).totalSOCKS5 = s.totalSOCKS5 := by
  cases hp : dOk p with
  | false => simp [checkSOCKS5Proxy, hp, updateProgress]
  | true =>
    simp [checkSOCKS5Proxy, hp, updateProgress]
    split <;> omega

lemma foldl_checkHTTPProxy_counters (strict : Bool) (env : String → ProbeEnv)
    (pOk : String → Bool) :
    ∀ (l : List String) (s : CheckerState),
      (l.foldl (checkHTTPProxy strict env pOk) s).checkedHTTP = s.checkedHTTP + l.length ∧
        (l.foldl (checkHTTPProxy strict env pOk) s).checkedSOCKS5 = s.checkedSOCKS5 ∧
        (l.foldl (checkHTTPProxy strict env pOk) s).workingHTTP ≤ s.workingHTTP + l.length ∧
        (l.foldl (checkHTTPProxy strict env pOk) s).workingSOCKS5 = s.workingSOCKS5 ∧
        (l.foldl (checkHTTPProxy strict env pOk) s).totalHTTP = s.totalHTTP ∧
        (l.foldl (checkHTTPProxy strict env pOk) s).totalSOCKS5 = s.totalSOCKS5 := by
  intro l
  induction l with
  | nil => intro s; simp
  | cons p rest ih =>
    intro s
    obtain ⟨h1, h2, h3, h4, h5, h6⟩ := checkHTTPProxy_step strict env pOk s p
    obtain ⟨g1, g2, g3, g4, g5, g6⟩ := ih (checkHTTPProxy strict env pOk s p)
    refine ⟨?_, ?_, ?_, ?_, ?_, ?_⟩ <;> simp only [List.foldl_cons, List.length_cons]
    · rw [g1, h1]; omega
    · rw [g2, h2]
    · calc (rest.foldl (checkHTTPProxy strict env pOk) (checkHTTPProxy strict env pOk s p)).workingHTTP
          ≤ (checkHTTPProxy strict env pOk s p).workingHTTP + rest.length := g3
        _ ≤ s.workingHTTP + 1 + rest.length := by omega
        _ = s.workingHTTP + (rest.length + 1) := by omega
    · rw [g4, h4]
    · rw [g5, h5]
    · rw [g6, h6]

lemma foldl_checkSOCKS5Proxy_counters (strict : Bool) (env : String → ProbeEnv)
    (dOk : String → Bool) :
    ∀ (l : List String) (s : CheckerState),
      (l.foldl (checkSOCKS5Proxy strict env dOk) s).checkedSOCKS5 = s.checkedSOCKS5 + l.length ∧
        (l.foldl (checkSOCKS5Proxy strict env dOk) s).checkedHTTP = s.checkedHTTP ∧
        (l.foldl (checkSOCKS5Proxy strict env dOk) s).workingSOCKS5 ≤ s.workingSOCKS5 + l.length ∧
        (l.foldl (checkSOCKS5Proxy strict env dOk) s).workingHTTP = s.workingHTTP ∧
        (l.foldl (checkSOCKS5Proxy strict env dOk) s).totalHTTP = s.totalHTTP ∧
        (l.foldl (checkSOCKS5Proxy strict env dOk) s).totalSOCKS5 = s.totalSOCKS5 := by
  intro l
  induction l with
  | nil => intro s; simp
  | cons p rest ih =>
    intro s
    obtain ⟨h1, h2, h3, h4, h5, h6⟩ := checkSOCKS5Proxy_step strict env dOk s p
    obtain ⟨g1, g2, g3, g4, g5, g6⟩ := ih (checkSOCKS5Proxy strict env dOk s p)
    refine ⟨?_, ?_, ?_, ?_, ?_, ?_⟩ <;> simp only [List.foldl_cons, List.length_cons]
    · rw [g1, h1]; omega
    · rw [g2, h2]
    · calc (rest.foldl (checkSOCKS5Proxy strict env dOk) (checkSOCKS5Proxy strict env dOk s p)).workingSOCKS5
          ≤ (checkSOCKS5Proxy strict env dOk s p).workingSOCKS5 + rest.length := g3
        _ ≤ s.workingSOCKS5 + 1 + rest.length := by omega
        _ = s.workingSOCKS5 + (rest.length + 1) := by omega
    · rw [g4, h4]
    · rw [g5, h5]
    · rw [g6, h6]

/-- C6: when `CheckProxies` has completed, each family's checked
counter equals its total (the length of that family's input list), and
each family's working counter is at most its checked counter. -/
theorem c6_counters_consistent (strict : Bool) (env : String → ProbeEnv)
    (pOk dOk : String → Bool) (httpProxies socks5Proxies : List String) :
    (CheckProxies strict env pOk dOk httpProxies socks5Proxies).totalHTTP
        = httpProxies.length ∧
      (CheckProxies strict env pOk dOk httpProxies socks5Proxies).totalSOCKS5
        = socks5Proxies.length ∧
      (CheckProxies strict env pOk dOk httpProxies socks5Proxies).checkedHTTP
        = (CheckProxies strict env pOk dOk httpProxies socks5Proxies).totalHTTP ∧
      (CheckProxies strict env pOk dOk httpProxies socks5Proxies).checkedSOCKS5
        = (CheckProxies strict env pOk dOk httpProxies socks5Proxies).totalSOCKS5 ∧
      (CheckProxies strict env pOk dOk httpProxies socks5Proxies).workingHTTP
        ≤ (CheckProxies strict env pOk dOk httpProxies socks5Proxies).checkedHTTP ∧
      (CheckProxies strict env pOk dOk httpProxies socks5Proxies).workingSOCKS5
        ≤ (CheckProxies strict env pOk dOk httpProxies socks5Proxies).checkedSOCKS5 := by
  have hCP : CheckProxies strict env pOk dOk httpProxies socks5Proxies
      = socks5Proxies.foldl (checkSOCKS5Proxy strict env dOk)
          (httpProxies.foldl (checkHTTPProxy strict env pOk)
            (initState httpProxies.length socks5Proxies.length)) := rfl
  obtain ⟨h1, h2, h3, h4, h5, h6⟩ :=
    foldl_checkHTTPProxy_counters strict env pOk httpProxies
      (initState httpProxies.length socks5Proxies.length)
  obtain ⟨g1, g2, g3, g4, g5, g6⟩ :=
    foldl_checkSOCKS5Proxy_counters strict env dOk socks5Proxies
      (httpProxies.foldl (checkHTTPProxy strict env pOk)
        (initState httpProxies.length socks5Proxies.length))
  have e1 : (initState httpProxies.length socks5Proxies.length).checkedHTTP = 0 := rfl
  have e2 : (initState httpProxies.length socks5Proxies.length).checkedSOCKS5 = 0 := rfl
  have e3 : (initState httpProxies.length socks5Proxies.length).workingHTTP = 0 := rfl
  have e4 : (initState httpProxies.length socks5Proxies.length).workingSOCKS5 = 0 := rfl
  have e5 : (initState httpProxies.length socks5Proxies.length).totalHTTP
      = httpProxies.length := rfl
  have e6 : (initState httpProxies.length socks5Proxies.length).totalSOCKS5
      = socks5Proxies.length := rfl
  rw [hCP]
  refine ⟨?_, ?_, ?_, ?_, ?_, ?_⟩ <;> omega

/-! ### Published results (the `ResultChan` contents) -/

lemma foldl_checkHTTPProxy_results (strict : Bool) (env : String → ProbeEnv)
    (pOk : String → Bool) :
    ∀ (l : List String) (s : CheckerState),
      ((l.foldl (checkHTTPProxy strict env pOk) s).results).map (fun r => r.proxy)
        = s.results.map (fun r => r.proxy) ++ l.filter pOk := by
  intro l
  induction l with
  | nil => intro s; simp
  | cons p rest ih =>
    intro s
    simp only [List.foldl_cons]
    rw [ih]
    by_cases hp : pOk p
    · have : (checkHTTPProxy strict env pOk s p).results.map (fun r => r.proxy)
          = s.results.map (fun r => r.proxy) ++ [p] := by
        simp [checkHTTPProxy, hp, updateProgress_results]
      rw [this]
      simp [List.filter_cons, hp]
    · have : (checkHTTPProxy strict env pOk s p).results.map (fun r => r.proxy)
          = s.results.map (fun r => r.proxy) := by
        simp [checkHTTPProxy, hp, updateProgress_results]
      rw [this]
      simp [List.filter_cons, hp]

lemma foldl_checkSOCKS5Proxy_results (strict : Bool) (env : String → ProbeEnv)
    (dOk : String → Bool) :
    ∀ (l : List String) (s : CheckerState),
      ((l.foldl (checkSOCKS5Proxy strict env dOk) s).results).map (fun r => r.proxy)
        = s.results.map (fun r => r.proxy) ++ l.filter dOk := by
  intro l
  induction l with
  | nil => intro s; simp
  | cons p rest ih =>
    intro s
    simp only [List.foldl_cons]
    rw [ih]
    by_cases hp : dOk p
    · have : (checkSOCKS5Proxy strict env dOk s p).results.map (fun r => r.proxy)
          = s.results.map (fun r => r.proxy) ++ [p] := by
        simp [checkSOCKS5Proxy, hp, updateProgress_results]
      rw [this]
      simp [List.filter_cons, hp]
    · have : (checkSOCKS5Proxy strict env dOk s p).results.map (fun r => r.proxy)
          = s.results.map (fun r => r.proxy) := by
        simp [checkSOCKS5Proxy, hp, updateProgress_results]
      rw [this]
      simp [List.filter_cons, hp]

/-- C2 (counterexample): a single HTTP candidate whose proxy URL fails
to parse is counted as checked but nothing is ever published to the
result channel, against the claim that every candidate, including
construction errors, yields exactly one published result. -/
theorem c2_construction_error_not_published :
    (CheckProxies false (fun _ => ⟨none, 0, none, none, 0⟩) (fun _ => false) (fun _ => true)
        ["1.2.3.4:8080"] []).results = [] ∧
      (CheckProxies false (fun _ => ⟨none, 0, none, none, 0⟩) (fun _ => false) (fun _ => true)
        ["1.2.3.4:8080"] []).checkedHTTP = 1 := by
  exact ⟨rfl, rfl⟩

/-- C2 (amended): the candidates published to the result channel are
exactly the submitted candidates whose transport construction
succeeded (HTTP proxy URL parsed, SOCKS5 dialer created), one result
per such candidate; candidates rejected for construction errors are
counted as checked but never published. -/
theorem c2_published_iff_constructed (strict : Bool) (env : String → ProbeEnv)
    (pOk dOk : String → Bool) (httpProxies socks5Proxies : List String) (p : String) :
    ((CheckProxies strict env pOk dOk httpProxies socks5Proxies).results).map (fun r => r.proxy)
        = httpProxies.filter pOk ++ socks5Proxies.filter dOk ∧
      ((CheckProxies strict env pOk dOk httpProxies socks5Proxies).results).countP
          (fun r => r.proxy == p)
        = (httpProxies.filter pOk).count p + (socks5Proxies.filter dOk).count p := by
  have hmap : ((CheckProxies strict env pOk dOk httpProxies socks5Proxies).results).map
      (fun r => r.proxy) = httpProxies.filter pOk ++ socks5Proxies.filter dOk := by
    unfold CheckProxies
    rw [foldl_checkSOCKS5Proxy_results, foldl_checkHTTPProxy_results]
    simp [initState]
  refine ⟨hmap, ?_⟩
  have hcomp : ((fun x => x == p) ∘ fun (r : CheckResult) => r.proxy)
      = (fun r => r.proxy == p) := rfl
  have hcount : ((CheckProxies strict env pOk dOk httpProxies socks5Proxies).results).countP
      (fun r => r.proxy == p)
      = (((CheckProxies strict env pOk dOk httpProxies socks5Proxies).results).map
          (fun r => r.proxy)).count p := by
    simp [List.count, List.countP_map, hcomp]
  rw [hcount, hmap, List.count_append]

/-! ### Deduplication (C7) -/

lemma beq_comm_str (a b : String) : (a == b) = (b == a) := by
  cases h : a == b
  · cases h2 : b == a
    · rfl
    · simp_all [beq_iff_eq]
  · simp_all [beq_iff_eq]

lemma dedupFirst_nil : dedupFirst [] = [] := by
  simp [dedupFirst]

lemma dedupFirst_cons (x : String) (xs : List String) :
    dedupFirst (x :: xs) = x :: dedupFirst (xs.filter (fun y => !(y == x))) := by
  simp [dedupFirst]

lemma removeDuplicatesAux_eq :
    ∀ (l seen acc : List String),
      removeDuplicatesAux l seen acc
        = acc ++ dedupFirst (l.filter (fun x => !(decide (x ∈ seen)))) := by
  intro l
  induction l with
  | nil => intro seen acc; simp [removeDuplicatesAux, dedupFirst_nil]
  | cons p rest ih =>
    intro seen acc
    by_cases hmem : p ∈ seen
    · have hstep : removeDuplicatesAux (p :: rest) seen acc
          = removeDuplicatesAux rest seen acc := by
        simp [removeDuplicatesAux, hmem]
      rw [hstep, ih]
      simp [List.filter_cons, hmem]
    · have hstep : removeDuplicatesAux (p :: rest) seen acc
          = removeDuplicatesAux rest (p :: seen) (acc ++ [p]) := by
        simp [removeDuplicatesAux, hmem]
      rw [hstep, ih]
      have hfilter : (p :: rest).filter (fun x => !(decide (x ∈ seen)))
          = p :: rest.filter (fun x => !(decide (x ∈ seen))) := by
        simp [List.filter_cons, hmem]
      rw [hfilter, dedupFirst_cons]
      have hmerge : (rest.filter (fun x => !(decide (x ∈ seen)))).filter (fun y => !(y == p))
          = rest.filter (fun x => !(decide (x ∈ p :: seen))) := by
        rw [List.filter_filter]
        refine List.filter_congr ?_
        intro a _
        by_cases hap : a = p
        · simp [hap]
        · by_cases has : a ∈ seen <;> simp [hap, has]
      rw [hmerge]
      simp

lemma RemoveDuplicates_eq_dedupFirst (l : List String) :
    RemoveDuplicates l = dedupFirst l := by
  have h := removeDuplicatesAux_eq l [] []
  have hfilter : l.filter (fun x => !(decide (x ∈ ([] : List String)))) = l := by
    refine List.filter_eq_self.mpr ?_
    intro a _
    simp
  rw [RemoveDuplicates, h, hfilter]
  rfl

lemma dedupFirst_mem : ∀ (l : List String) (y : String), y ∈ dedupFirst l ↔ y ∈ l := by
  intro l
  induction l using dedupFirst.induct with
  | case1 => intro y; simp [dedupFirst_nil]
  | case2 x xs ih =>
    intro y
    rw [dedupFirst_cons]
    simp only [List.mem_cons, ih, List.mem_filter]
    by_cases hyx : y = x
    · simp [hyx]
    · simp [hyx]

lemma dedupFirst_nodup : ∀ (l : List String), (dedupFirst l).Nodup := by
  intro l
  induction l using dedupFirst.induct with
  | case1 => simp [dedupFirst_nil]
  | case2 x xs ih =>
    rw [dedupFirst_cons]
    refine List.nodup_cons.mpr ⟨?_, ih⟩
    intro hx
    have := (dedupFirst_mem _ x).mp hx
    simp at this

lemma dedupFirst_sublist : ∀ (l : List String), (dedupFirst l).Sublist l := by
  intro l
  induction l using dedupFirst.induct with
  | case1 => simp [dedupFirst_nil]
  | case2 x xs ih =>
    rw [dedupFirst_cons]
    exact List.Sublist.cons₂ x (ih.trans (List.filter_sublist xs))

lemma firstIdx_cons (x a : String) (xs : List String) :
    firstIdx (x :: xs) a = if x = a then 0 else firstIdx xs a + 1 := rfl

lemma firstIdx_filter_lt (p : String → Bool) :
    ∀ (l : List String) (a b : String), a ∈ l.filter p → b ∈ l.filter p →
      firstIdx (l.filter p) a < firstIdx (l.filter p) b → firstIdx l a < firstIdx l b := by
  intro l
  induction l with
  | nil => intro a b ha; simp at ha
  | cons c t ih =>
    intro a b ha hb hlt
    cases hc : p c with
    | false =>
      rw [List.filter_cons_of_neg (by simp [hc])] at ha hb hlt
      have hac : c ≠ a := by
        intro h
        subst h
        have := (List.mem_filter.mp ha).2
        simp [hc] at this
      have hbc : c ≠ b := by
        intro h
        subst h
        have := (List.mem_filter.mp hb).2
        simp [hc] at this
      rw [firstIdx_cons, firstIdx_cons, if_neg hac, if_neg hbc]
      have := ih a b ha hb hlt
      omega
    | true =>
      rw [List.filter_cons_of_pos (by simp [hc])] at ha hb hlt
      by_cases hca : c = a
      · subst hca
        by_cases hcb : c = b
        · subst hcb
          rw [firstIdx_cons, if_pos rfl] at hlt
          simp at hlt
        · rw [firstIdx_cons, firstIdx_cons, if_pos rfl, if_neg hcb]
          omega
      · by_cases hcb : c = b
        · subst hcb
          rw [firstIdx_cons, firstIdx_cons, if_neg hca, if_pos rfl] at hlt
          omega
        · rw [firstIdx_cons, firstIdx_cons, if_neg hca, if_neg hcb] at hlt
          have ha2 : a ∈ t.filter p := by
            rcases List.mem_cons.mp ha with h | h
            · exact absurd h.symm hca
            · exact h
          have hb2 : b ∈ t.filter p := by
            rcases List.mem_cons.mp hb with h | h
            · exact absurd h.symm hcb
            · exact h
          have := ih a b ha2 hb2 (by omega)
          rw [firstIdx_cons, firstIdx_cons, if_neg hca, if_neg hcb]
          omega

lemma dedupFirst_pairwise :
    ∀ (l : List String), (dedupFirst l).Pairwise (fun a b => firstIdx l a < firstIdx l b) := by
  intro l
  induction l using dedupFirst.induct with
  | case1 => simp [dedupFirst_nil]
  | case2 x xs ih =>
    rw [dedupFirst_cons]
    refine List.pairwise_cons.mpr ⟨?_, ?_⟩
    · intro b hb
      have hbf : b ∈ xs.filter (fun y => !(y == x)) := (dedupFirst_mem _ b).mp hb
      have hbx : ¬ (x = b) := by
        intro h
        have := (List.mem_filter.mp hbf).2
        simp [h] at this
      rw [firstIdx_cons, firstIdx_cons, if_pos rfl, if_neg hbx]
      omega
    · refine List.Pairwise.imp_of_mem ?_ ih
      intro a b ha hb hab
      have haf : a ∈ xs.filter (fun y => !(y == x)) := (dedupFirst_mem _ a).mp ha
      have hbf : b ∈ xs.filter (fun y => !(y == x)) := (dedupFirst_mem _ b).mp hb
      have hax : ¬ (x = a) := by
        intro h
        have := (List.mem_filter.mp haf).2
        simp [h] at this
      have hbx : ¬ (x = b) := by
        intro h
        have := (List.mem_filter.mp hbf).2
        simp [h] at this
      have := firstIdx_filter_lt (fun y => !(y == x)) xs a b haf hbf hab
      rw [firstIdx_cons, firstIdx_cons, if_neg hax, if_neg hbx]
      omega

/-- C7: `RemoveDuplicates` returns a duplicate-free subsequence of its
input containing exactly the input's elements, ordered by first
occurrence (elements appear in strictly increasing order of their
first-occurrence index in the input), with length the number of
distinct input elements. -/
theorem c7_remove_duplicates (l : List String) :
    (RemoveDuplicates l).Nodup ∧
      (RemoveDuplicates l).Sublist l ∧
      (∀ x, x ∈ RemoveDuplicates l ↔ x ∈ l) ∧
      (RemoveDuplicates l).Pairwise (fun a b => firstIdx l a < firstIdx l b) ∧
      (RemoveDuplicates l).length = l.toFinset.card := by
  rw [RemoveDuplicates_eq_dedupFirst]
  refine ⟨dedupFirst_nodup l, dedupFirst_sublist l, dedupFirst_mem l, dedupFirst_pairwise l, ?_⟩
  have hfin : (dedupFirst l).toFinset = l.toFinset := by
    ext a
    simp [List.mem_toFinset, dedupFirst_mem]
  calc (dedupFirst l).length = (dedupFirst l).toFinset.card :=
        (List.toFinset_card_of_nodup (dedupFirst_nodup l)).symm
    _ = l.toFinset.card := by rw [hfin]

/-! ### Shape of accepted candidates (C3) -/

/-- C3 (counterexample): the claim that an accepted candidate splits
into two NONEMPTY segments fails: the JSON line with an explicitly
empty `ip` field normalizes to ":80", which `isValidProxy` accepts,
and whose first colon-segment is empty. -/
theorem c3_empty_first_segment_accepted :
    isValidProxy "\x7b\"data\":[\x7b\"ip\":\"\",\"port\":\"80\"\x7d]\x7d" = (":80", true) ∧
      (":80" : String).toList.splitOn ':' = [[], ['8', '0']] := by
  exact ⟨rfl, rfl⟩

/-- C3 (amended): whenever `isValidProxy` accepts a line, the
normalized candidate it returns splits on colons into exactly two
segments, and the second segment (the port) is one to five characters,
all ASCII digits; the first segment, however, may be empty (the JSON
branch can produce an empty ip). -/
theorem c3_accepted_candidate_shape (s norm : String)
    (h : isValidProxy s = (norm, true)) :
    ∃ a b : List Char, norm.toList.splitOn ':' = [a, b] ∧
      1 ≤ b.length ∧ b.length ≤ 5 ∧ ∀ c ∈ b, '0' ≤ c ∧ c ≤ '9' := by
  simp only [isValidProxy] at h
  split_ifs at h with h1 h2 h3 h4 h5
  · simp at h
  · simp at h
  · simp at h
  · simp at h
  · simp at h
  · simp only [Prod.mk.injEq] at h
    obtain ⟨hnorm, -⟩ := h
    subst hnorm
    have hlen : ((normalizeProxy s).toList.splitOn ':').length = 2 := by
      by_contra hne
      exact h3 (by simpa using hne)
    obtain ⟨a, b, hab⟩ := List.length_eq_two.mp hlen
    rw [hab] at h4 h5
    have hgetD : ([a, b] : List (List Char)).getD 1 [] = b := rfl
    rw [hgetD] at h4 h5
    simp only [Bool.or_eq_true, beq_iff_eq, decide_eq_true_eq, not_or] at h4
    obtain ⟨hz, hle⟩ := h4
    simp only [List.any_eq_true, Bool.or_eq_true, decide_eq_true_eq, not_exists,
      not_and, not_or] at h5
    refine ⟨a, b, hab, by omega, by omega, ?_⟩
    intro c hc
    exact ⟨le_of_not_lt (h5 c hc).1, le_of_not_lt (h5 c hc).2⟩

/-- C3 (witness): the shape property evaluated on an ordinary
accepted line. -/
theorem c3_accepted_candidate_shape_witness :
    ∃ a b : List Char, ("1.2.3.4:8080" : String).toList.splitOn ':' = [a, b] ∧
      1 ≤ b.length ∧ b.length ≤ 5 ∧ ∀ c ∈ b, '0' ≤ c ∧ c ≤ '9' :=
  c3_accepted_candidate_shape "1.2.3.4:8080" "1.2.3.4:8080" rfl

/-! ### The best-effort fallback of the normalizer (C10) -/

lemma matchOctetDot_head_digit (cs : List Char) (o r : List Char)
    (h : matchOctetDot cs = some (o, r)) :
    ∃ c t, cs = c :: t ∧ c.isDigit = true := by
  cases cs with
  | nil => simp [matchOctetDot] at h
  | cons c t =>
    cases hd : c.isDigit with
    | false => simp [matchOctetDot, List.takeWhile_cons, hd] at h
    | true => exact ⟨c, t, rfl, hd⟩

lemma matchQuadAt_head_digit (cs : List Char) (q : List Char)
    (h : matchQuadAt cs = some q) :
    ∃ c t, cs = c :: t ∧ c.isDigit = true := by
  cases hm : matchOctetDot cs with
  | none => rw [matchQuadAt, hm] at h; cases h
  | some pr => exact matchOctetDot_head_digit cs pr.1 pr.2 (by rw [hm])

lemma findDigits_ne_nil : ∀ (cs d : List Char), findDigits cs = some d → d ≠ [] := by
  intro cs
  induction cs with
  | nil => intro d h; cases h
  | cons c rest ih =>
    intro d h
    cases hd : c.isDigit with
    | true =>
      rw [findDigits, if_pos hd] at h
      cases h
      simp [List.takeWhile_cons, hd]
    | false =>
      rw [findDigits, if_neg (by simp [hd])] at h
      exact ih d h

lemma findDigits_of_findQuad :
    ∀ (cs q : List Char), findQuad cs = some q → ∃ d, findDigits cs = some d := by
  intro cs
  induction cs with
  | nil => intro q h; cases h
  | cons c rest ih =>
    intro q h
    cases hm : matchQuadAt (c :: rest) with
    | some r =>
      obtain ⟨c2, t, hct, hd⟩ := matchQuadAt_head_digit (c :: rest) r hm
      have hcd : c.isDigit = true := by
        injection hct with hc ht
        rw [hc]; exact hd
      exact ⟨_, by rw [findDigits, if_pos hcd]⟩
    | none =>
      rw [findQuad, hm] at h
      obtain ⟨d, hdig⟩ := ih q h
      cases hcd : c.isDigit with
      | true => exact ⟨_, by rw [findDigits, if_pos hcd]⟩
      | false => exact ⟨d, by rw [findDigits, if_neg (by simp [hcd])]; exact hdig⟩

/-- C10: on any line whose scheme-stripped text is not handled by the
JSON branch nor by the strict ip:port pattern but does contain a
dotted quad, `normalizeProxy` never rejects: it pairs the leftmost
quad with the leftmost run of up to five digits of the same text —
which can be part of the quad itself, as in the concrete conjuncts:
the bare address "1.2.3.4" normalizes to "1.2.3.4:1" and is accepted
by `isValidProxy`. -/
theorem c10_fallback_never_rejects (s : String) (q : List Char)
    (h1 : jsonBranch (stripSchemes s.toList) = none)
    (h2 : findIpPort (stripSchemes s.toList) = none)
    (h3 : findQuad (stripSchemes s.toList) = some q) :
    (∃ d, findDigits (stripSchemes s.toList) = some d ∧ d ≠ [] ∧
        normalizeProxy s = String.mk (q ++ ':' :: d) ∧ normalizeProxy s ≠ "") ∧
      normalizeProxy "1.2.3.4" = "1.2.3.4:1" ∧
      isValidProxy "1.2.3.4" = ("1.2.3.4:1", true) := by
  obtain ⟨d, hd⟩ := findDigits_of_findQuad _ q h3
  have hne := findDigits_ne_nil _ d hd
  have hnorm : normalizeProxy s = String.mk (q ++ ':' :: d) := by
    rw [normalizeProxy, h1, h2, h3, hd]
  refine ⟨⟨d, hd, hne, hnorm, ?_⟩, rfl, rfl⟩
  rw [hnorm]
  intro hcontra
  have h0 := congrArg String.toList hcontra
  simp at h0

/-- C10 (witness): the fallback theorem applied to the bare address
"1.2.3.4" (no JSON, no colon, quad present). -/
theorem c10_fallback_never_rejects_witness :
    (∃ d, findDigits (stripSchemes ("1.2.3.4" : String).toList) = some d ∧ d ≠ [] ∧
        normalizeProxy "1.2.3.4" = String.mk (("1.2.3.4" : String).toList ++ ':' :: d) ∧
        normalizeProxy "1.2.3.4" ≠ "") ∧
      normalizeProxy "1.2.3.4" = "1.2.3.4:1" ∧
      isValidProxy "1.2.3.4" = ("1.2.3.4:1", true) :=
  c10_fallback_never_rejects "1.2.3.4" ("1.2.3.4" : String).toList rfl rfl rfl

end PSC
